import Mathlib

/-!
Verification of the SmallTown_Writer collaboration engine.

This file gives a shallow embedding, in Lean 4, of the collaboration core of
the repository: the text-operation application and transform functions of
`collaborationService` (src/unnamed/part_005), the Socket.IO server's join /
disconnect handlers (src/unnamed/part_006), the client connect-retry loop of
the broker `WebSocketClient` (src/unnamed/part_005), and the presence
(activity-check / heartbeat / cleanup) logic of
`src/src/services/websocketService.ts`.

Modelling conventions:
* document content and operation text are `List Char` (JS strings);
* JS `number` fields are `Int`; optional fields are `Option _`;
* JS truthiness tests (`op.text`, `op.length`, `op.content`, `ts || 0`,
  `user.lastActive && _`) are modelled exactly: `undefined`, `0`, and the
  empty string are falsy;
* `String.prototype.substring` clamps its argument into `[0, length]`;
  `jsTake` / `jsDrop` reproduce that clamping;
* `Array.prototype.sort` with comparator `(a,b) => tsA - tsB` is a stable
  ascending sort by timestamp; it is modelled by `List.insertionSort`,
  which is stable.
-/

/-- The `type` field of a `TextOperation`
(`'insert' | 'delete' | 'sync' | 'retry'`, src/unnamed/part_005). The spec
calls the `sync` variant "FullSync". -/
inductive OpType
  | insert
  | delete
  | sync
  | retry
deriving DecidableEq, Repr

/-- The `TextOperation` interface of src/src/types/TextOperation.ts and
src/unnamed/part_005: every field except `type` and `userId` is optional. -/
structure TextOperation where
  type : OpType
  userId : String
  position : Option Int := none
  text : Option (List Char) := none
  length : Option Int := none
  content : Option (List Char) := none
  timestamp : Option Int := none
  fromUserId : Option String := none
deriving DecidableEq, Repr

/-- JS truthiness of an optional string: `undefined` and `""` are falsy. -/
def truthyStr : Option (List Char) → Bool
  | none => false
  | some s => !s.isEmpty

/-- JS truthiness of an optional number: `undefined` and `0` are falsy. -/
def truthyNum : Option Int → Bool
  | none => false
  | some n => n != 0

/-- Clamp an index into `[0, l.length]`, as JS `substring` does. -/
def clampIdx (l : List Char) (i : Int) : Nat :=
  (min (max i 0) (l.length : Int)).toNat

/-- `s.substring(0, i)` on a JS string. -/
def jsTake (l : List Char) (i : Int) : List Char :=
  l.take (clampIdx l i)

/-- `s.substring(i)` on a JS string. -/
def jsDrop (l : List Char) (i : Int) : List Char :=
  l.drop (clampIdx l i)

/-- `applyOperation(content, operation)` of src/unnamed/part_005 (lines
503-516): insert splices `text` at `position` when `text` is truthy and
`position !== undefined`; delete drops `length` chars at `position` when
`length` is truthy and `position !== undefined`; `sync` replaces the content
when the carried `content` is truthy; every other case returns the content
unchanged. -/
def applyOperation (content : List Char) (op : TextOperation) : List Char :=
  if op.type = OpType.insert ∧ truthyStr op.text ∧ op.position ≠ none then
    jsTake content (op.position.getD 0) ++ op.text.getD [] ++
      jsDrop content (op.position.getD 0)
  else if op.type = OpType.delete ∧ truthyNum op.length ∧ op.position ≠ none then
    jsTake content (op.position.getD 0) ++
      jsDrop content (op.position.getD 0 + op.length.getD 0)
  else if op.type = OpType.sync ∧ truthyStr op.content then
    op.content.getD []
  else
    content

/-- The session record of `collaborationService` (src/unnamed/part_005):
only the fields touched by `executeOperation` are modelled. -/
structure CollabSession where
  content : List Char
  operations : List TextOperation
deriving DecidableEq, Repr

/-- `executeOperation(sessionId, operation)` of src/unnamed/part_005 (lines
519-538): stamps the operation with the current time, applies it to the
session content unconditionally, and appends it to the history. -/
def executeOperation (sess : CollabSession) (op : TextOperation) (now : Int) :
    TextOperation × CollabSession :=
  let fullOp := { op with timestamp := some now }
  (fullOp,
   { content := applyOperation sess.content fullOp,
     operations := sess.operations ++ [fullOp] })

/-- The spec's notion of splicing text `t` into `content` at index `p`. -/
def spliceAt (content : List Char) (p : Nat) (t : List Char) : List Char :=
  content.take p ++ t ++ content.drop p

/-- The spec's notion of removing the `n` characters starting at index `p`. -/
def removeAt (content : List Char) (p n : Nat) : List Char :=
  content.take p ++ content.drop (p + n)

/-- Timestamp defaulting `op.timestamp || 0` used by the transform and the
validator (src/unnamed/part_005). -/
def tsD (op : TextOperation) : Int :=
  op.timestamp.getD 0

/-- The same-user guard of `transformOperation` and `validateOperation`
(src/unnamed/part_005 lines 588-589 and 634-635):
`existingOp.fromUserId && incomingOp.fromUserId &&
 existingOp.fromUserId === incomingOp.fromUserId`.
Both `fromUserId` fields must be truthy (present and non-empty) and equal;
the required `userId` field is not consulted. -/
def sameFromUser (a b : TextOperation) : Bool :=
  match a.fromUserId, b.fromUserId with
  | some x, some y => !(x == "") && !(y == "") && x == y
  | _, _ => false

/-- JS `a <= b` on two optional numbers: false when either is `undefined`. -/
def posLe : Option Int → Option Int → Bool
  | some a, some b => a ≤ b
  | _, _ => false

/-- JS `a < b` on two optional numbers: false when either is `undefined`. -/
def posLt : Option Int → Option Int → Bool
  | some a, some b => a < b
  | _, _ => false

/-- One iteration of the `for (const existingOp of sortedOps)` loop of
`transformOperation` (src/unnamed/part_005 lines 632-664): skip when the
same-user guard fires, otherwise shift the accumulated position by
`+text.length` for a prior insert at or before it and by `-length` for a
prior delete strictly before it. -/
def transformStep (acc ex : TextOperation) : TextOperation :=
  if sameFromUser ex acc then acc
  else
    match ex.type, acc.type with
    | OpType.insert, OpType.insert =>
        if posLe ex.position acc.position then
          { acc with position := some (acc.position.getD 0 + ((ex.text.getD []).length : Int)) }
        else acc
    | OpType.delete, OpType.insert =>
        if posLt ex.position acc.position then
          { acc with position := some (acc.position.getD 0 - ex.length.getD 0) }
        else acc
    | OpType.insert, OpType.delete =>
        if posLe ex.position acc.position then
          { acc with position := some (acc.position.getD 0 + ((ex.text.getD []).length : Int)) }
        else acc
    | OpType.delete, OpType.delete =>
        if posLt ex.position acc.position then
          { acc with position := some (acc.position.getD 0 - ex.length.getD 0) }
        else acc
    | _, _ => acc

/-- The ascending-by-timestamp sort of `transformOperation`
(`[...existingOps].sort((a,b) => tsA - tsB)`), a stable sort. -/
def sortByTs (ops : List TextOperation) : List TextOperation :=
  ops.insertionSort (fun a b => tsD a ≤ tsD b)

/-- `transformOperation(incomingOp, existingOps)` of src/unnamed/part_005
(lines 612-667). -/
def transformOperation (inOp : TextOperation) (ops : List TextOperation) :
    TextOperation :=
  if ops = [] then inOp
  else (sortByTs ops).foldl transformStep inOp

/-- The position shift described by the spec for one prior operation:
`+text.length` for an insert at or before the current position, `-length`
for a delete strictly before it. -/
def specShift (p : Int) (ex : TextOperation) : Int :=
  match ex.type, ex.position with
  | OpType.insert, some q => if q ≤ p then p + ((ex.text.getD []).length : Int) else p
  | OpType.delete, some q => if q < p then p - ex.length.getD 0 else p
  | _, _ => p

/-- The `{isValid, reason}` result of `validateOperation`
(src/unnamed/part_005). The source reason strings are Chinese prose; they
are modelled by the ASCII tokens below, which no claim inspects. -/
structure ValidationResult where
  isValid : Bool
  reason : Option String := none
deriving DecidableEq, Repr

/-- The per-element conflict test of `validateOperation`
(src/unnamed/part_005 lines 586-599): operations sharing a truthy
`fromUserId` are ignored; otherwise the defaulted timestamps must differ by
less than 1000 ms to conflict. -/
def conflictsWith (incoming ex : TextOperation) : Bool :=
  if sameFromUser ex incoming then false
  else (tsD ex - tsD incoming).natAbs < 1000

/-- `validateOperation(incomingOp, existingOps)` of src/unnamed/part_005
(lines 568-609): an empty history is always valid; a falsy incoming
timestamp is invalid; otherwise invalid exactly when some existing operation
conflicts. -/
def validateOperation (incoming : TextOperation) (existing : List TextOperation) :
    ValidationResult :=
  if existing = [] then { isValid := true }
  else if !truthyNum incoming.timestamp then
    { isValid := false, reason := some "missing-timestamp" }
  else if 0 < (existing.filter (conflictsWith incoming)).length then
    { isValid := false, reason := some "conflicts-with-existing" }
  else { isValid := true }

/-! ## The Socket.IO server (src/unnamed/part_006) -/

/-- The server `User` record (src/unnamed/part_006 lines 27-51), restricted
to the fields the join / disconnect handlers read or write wholesale
(`cursorPosition`, `selection` and `socketId` are never consulted by the
capacity or name checks). -/
structure SrvUser where
  id : String
  name : String
  color : String
  status : String
  lastActive : Int
deriving DecidableEq, Repr

/-- The server `Session` record (src/unnamed/part_006 lines 54-59). -/
structure Session where
  id : String
  users : List SrvUser
  content : List Char
  lastUpdated : Int
deriving DecidableEq, Repr

/-- Result of a join attempt, read off the `connection_ack` payload the
server emits: success, "会话人数已达到上限" (SessionFull), or
"用户名已被使用" (NameTaken). -/
inductive JoinResult
  | success
  | sessionFull
  | nameTaken
deriving DecidableEq, Repr

/-- `MAX_USERS_PER_SESSION` (src/unnamed/part_006 line 16). -/
def MAX_USERS_PER_SESSION : Nat := 8

/-- Case-insensitive name comparison
(`u.name.toLowerCase() === userName.toLowerCase()`), on the character
lists underlying the two strings. -/
def lowerEqNames (a b : String) : Bool :=
  a.data.map Char.toLower == b.data.map Char.toLower

/-- The `socket.on('join')` handler of src/unnamed/part_006 (lines 100-215),
as a function of the (already existing) session: reject `sessionFull` when
the user list already holds `MAX_USERS_PER_SESSION` entries; reject
`nameTaken` when some participant with a different id already uses the name
case-insensitively; otherwise replace the entry with the same id if one
exists, else append a new entry. -/
def handleJoin (s : Session) (userId userName color : String) (now : Int) :
    JoinResult × Session :=
  if MAX_USERS_PER_SESSION ≤ s.users.length then
    (JoinResult.sessionFull, s)
  else if s.users.any (fun u => lowerEqNames u.name userName && u.id != userId) then
    (JoinResult.nameTaken, s)
  else
    let user : SrvUser := { id := userId, name := userName, color := color,
                            status := "active", lastActive := now }
    match s.users.findIdx? (fun u => u.id == userId) with
    | some i => (JoinResult.success, { s with users := s.users.set i user })
    | none => (JoinResult.success, { s with users := s.users ++ [user] })

/-- The `socket.on('disconnect')` handler of src/unnamed/part_006 (lines
337-380), restricted to the user list: remove the first entry with the
leaving user's id (the session itself is kept). -/
def handleLeave (s : Session) (userId : String) : Session :=
  { s with users := s.users.eraseP (fun u => u.id == userId) }

/-- A join or leave event hitting one session. -/
inductive SessionEvent
  | join (userId userName color : String) (now : Int)
  | leave (userId : String)
deriving DecidableEq, Repr

/-- Apply one join / leave event to a session (joins keep the session
unchanged when rejected). -/
def stepSession (s : Session) (e : SessionEvent) : Session :=
  match e with
  | SessionEvent.join uid name color now => (handleJoin s uid name color now).2
  | SessionEvent.leave uid => handleLeave s uid

/-! ## The connect-retry loop of the broker client (src/unnamed/part_005) -/

/-- How one connection attempt of `connectWithRetry` resolves: the server
acks success, the server acks failure with an error string (SessionFull /
NameTaken), the socket reports an error, or the 5-second timer fires. -/
inductive AttemptOutcome
  | ackSuccess
  | ackFailure (error : String)
  | transportError
  | connectTimeout
deriving DecidableEq, Repr

/-- `maxRetries` of `WebSocketClient` (src/unnamed/part_005 line 26). -/
def maxRetries : Nat := 3

/-- The fixed retry delay of `handleConnectionFailure` (1000 ms). -/
def retryDelayMs : Nat := 1000

/-- Whether an attempt outcome reaches `handleConnectionFailure`: every
outcome other than a successful ack does, the ack-failure branch included
(src/unnamed/part_005 lines 96-100, 109-113, 128-134). -/
def isFailure : AttemptOutcome → Bool
  | AttemptOutcome.ackSuccess => false
  | _ => true

/-- `connectWithRetry` (src/unnamed/part_005 lines 45-165) run against a
script listing how each successive attempt resolves. Returns the boolean
the promise resolves with and the total milliseconds spent in retry delays.
A successful ack resolves `true` at once; any failure consumes one retry
(after a 1000 ms delay) while retries remain and resolves `false` once they
are exhausted. An empty script (an attempt that never resolves) is mapped
to `(false, 0)`. -/
def connectWithRetry (retriesLeft : Nat) :
    List AttemptOutcome → Bool × Nat
  | [] => (false, 0)
  | o :: rest =>
    match o with
    | AttemptOutcome.ackSuccess => (true, 0)
    | _ =>
      if 0 < retriesLeft then
        let r := connectWithRetry (retriesLeft - 1) rest
        (r.1, retryDelayMs + r.2)
      else (false, 0)

/-- `connect(sessionId, userId, userName)` (src/unnamed/part_005 lines
40-42): run the retry loop with `maxRetries` retries. -/
def connectRun (outcomes : List AttemptOutcome) : Bool × Nat :=
  connectWithRetry maxRetries outcomes

/-! ## Presence logic of src/src/services/websocketService.ts -/

/-- The `UserStatus` enum of src/src/services/websocketService.ts. -/
inductive UserStatus
  | online
  | away
  | offline
deriving DecidableEq, Repr

/-- A client-side `CollaborationUser`, restricted to the fields the
presence sweeps read or write (`color`, `cursorPosition`, `selection` are
carried through untouched by those sweeps). -/
structure CUser where
  id : String
  name : String
  status : UserStatus
  lastActive : Option Int
deriving DecidableEq, Repr

/-- `AWAY_TIMEOUT` (30 s, src/src/services/websocketService.ts line 55). -/
def AWAY_TIMEOUT : Int := 30 * 1000

/-- `OFFLINE_TIMEOUT` (5 min, src/src/services/websocketService.ts line 56). -/
def OFFLINE_TIMEOUT : Int := 5 * 60 * 1000

/-- The extra removal bound of `cleanupOfflineUsers` for `away` users
(`2 * 60 * 1000`, src/src/services/websocketService.ts line 310). -/
def awayRemoveLimit : Int := 2 * 60 * 1000

/-- The per-user body of the `startActivityCheck` sweep
(src/src/services/websocketService.ts lines 858-881): a user whose status is
`online` or `offline` and whose truthy `lastActive` lies strictly more than
`AWAY_TIMEOUT` in the past becomes `away`; everyone else is unchanged (the
status enum here is already valid, so the validation coercion is the
identity). -/
def activityCheckUser (now : Int) (u : CUser) : CUser :=
  if (u.status == UserStatus.online || u.status == UserStatus.offline) &&
      truthyNum u.lastActive && decide (AWAY_TIMEOUT < now - u.lastActive.getD 0) then
    { u with status := UserStatus.away }
  else u

/-- The whole `startActivityCheck` sweep over a user list. -/
def activityCheckSweep (now : Int) (users : List CUser) : List CUser :=
  users.map (activityCheckUser now)

/-- The timestamp refresh of `sendHeartbeat`
(src/src/services/websocketService.ts lines 1165-1171): the heartbeating
user's `lastActive` becomes `now`. -/
def heartbeatTouch (uid : String) (now : Int) (u : CUser) : CUser :=
  if u.id == uid then { u with lastActive := some now } else u

/-- The keep-condition of the `sendHeartbeat` sweep
(src/src/services/websocketService.ts lines 1174-1189): a user with a falsy
`lastActive`, or one whose `lastActive` lies strictly more than
`OFFLINE_TIMEOUT` in the past, is dropped. -/
def heartbeatKeep (now : Int) (u : CUser) : Bool :=
  truthyNum u.lastActive && decide (now - u.lastActive.getD 0 ≤ OFFLINE_TIMEOUT)

/-- The user-list effect of `sendHeartbeat(userId)`
(src/src/services/websocketService.ts lines 1154-1207): refresh the
heartbeater, drop every timed-out user, and broadcast one `leave` message
per dropped user (second component: the userIds of those leave messages, in
order). -/
def sendHeartbeatUsers (users : List CUser) (uid : String) (now : Int) :
    List CUser × List String :=
  let updated := users.map (heartbeatTouch uid now)
  (updated.filter (heartbeatKeep now),
   (updated.filter (fun u => !heartbeatKeep now u)).map (fun u => u.id))

/-- The keep-condition of `cleanupOfflineUsers`
(src/src/services/websocketService.ts lines 1302-1316): drop users with a
falsy `lastActive` or one more than `OFFLINE_TIMEOUT` old, and additionally
drop `away` users whose `lastActive` is more than two minutes old. The
removals of this sweep broadcast only a `sync` of the surviving list, not a
`leave`. -/
def cleanupKeep (now : Int) (u : CUser) : Bool :=
  if !truthyNum u.lastActive || decide (OFFLINE_TIMEOUT < now - u.lastActive.getD 0) then
    false
  else if u.status == UserStatus.away && decide (awayRemoveLimit < now - u.lastActive.getD 0) then
    false
  else true

/-- `cleanupOfflineUsers` (src/src/services/websocketService.ts lines
1291-1331), restricted to the user list it rewrites. -/
def cleanupOfflineUsers (users : List CUser) (now : Int) : List CUser :=
  users.filter (cleanupKeep now)

/-- The content update performed by the client `sendOperation`
(src/src/services/websocketService.ts lines 475-481), built from
`applyInsert` and `applyDelete` (lines 509-516) under the same truthiness
guards as the server-side `applyOperation`. -/
def applyInsert (content : List Char) (position : Int) (text : List Char) :
    List Char :=
  jsTake content position ++ text ++ jsDrop content position

/-- `applyDelete(content, position, length)`
(src/src/services/websocketService.ts lines 514-516). -/
def applyDelete (content : List Char) (position length : Int) : List Char :=
  jsTake content position ++ jsDrop content (position + length)

/-- The `content` value `sendOperation` stores and broadcasts
(src/src/services/websocketService.ts lines 475-481). -/
def sendOperationContent (content : List Char) (op : TextOperation) :
    List Char :=
  if op.type = OpType.insert ∧ truthyStr op.text ∧ op.position ≠ none then
    applyInsert content (op.position.getD 0) (op.text.getD [])
  else if op.type = OpType.delete ∧ truthyNum op.length ∧ op.position ≠ none then
    applyDelete content (op.position.getD 0) (op.length.getD 0)
  else if op.type = OpType.sync ∧ truthyStr op.content then
    op.content.getD []
  else
    content

/-- A session at capacity: eight participants `u1 … u8`. -/
def fullSession : Session :=
  { id := "s1",
    users := [⟨"u1", "n1", "#F44336", "active", 0⟩,
              ⟨"u2", "n2", "#E91E63", "active", 0⟩,
              ⟨"u3", "n3", "#9C27B0", "active", 0⟩,
              ⟨"u4", "n4", "#673AB7", "active", 0⟩,
              ⟨"u5", "n5", "#3F51B5", "active", 0⟩,
              ⟨"u6", "n6", "#2196F3", "active", 0⟩,
              ⟨"u7", "n7", "#03A9F4", "active", 0⟩,
              ⟨"u8", "n8", "#00BCD4", "active", 0⟩],
    content := [],
    lastUpdated := 0 }

/-- A session holding a single participant `u1` named Alice. -/
def demoSession : Session :=
  { id := "s2",
    users := [⟨"u1", "Alice", "#F44336", "active", 0⟩],
    content := [],
    lastUpdated := 0 }

/-! ## Helper lemmas -/

/-- On a natural-number index, the JS-clamped prefix agrees with `take`. -/
theorem jsTake_natCast (l : List Char) (p : Nat) : jsTake l (p : Int) = l.take p := by
  unfold jsTake clampIdx
  rw [max_eq_left (Int.natCast_nonneg p)]
  rcases le_total (p : Int) (l.length : Int) with h | h
  · rw [min_eq_left h, Int.toNat_natCast]
  · rw [min_eq_right h, Int.toNat_natCast, List.take_length,
      List.take_of_length_le (by exact_mod_cast h)]

/-- On a natural-number index, the JS-clamped suffix agrees with `drop`. -/
theorem jsDrop_natCast (l : List Char) (p : Nat) : jsDrop l (p : Int) = l.drop p := by
  unfold jsDrop clampIdx
  rw [max_eq_left (Int.natCast_nonneg p)]
  rcases le_total (p : Int) (l.length : Int) with h | h
  · rw [min_eq_left h, Int.toNat_natCast]
  · rw [min_eq_right h, Int.toNat_natCast, List.drop_length,
      List.drop_eq_nil_of_le (by exact_mod_cast h)]

/-! ## Claims -/

/-- Claim C1, counterexample. The claim says a FullSync carrying content `c`
yields exactly `c` "regardless of what it was"; but `applyOperation` guards
the sync branch with the truthiness of `operation.content`, so a sync
carrying the empty string leaves the previous content `"abc"` in place
instead of replacing it. -/
theorem C1_counterexample :
    applyOperation ['a', 'b', 'c']
      { type := OpType.sync, userId := "u", content := some [] } = ['a', 'b', 'c'] ∧
    (['a', 'b', 'c'] : List Char) ≠ [] := by
  constructor
  · rfl
  · decide

/-- Claim C1, amended: an Insert with text `t` and position `p` yields the
old content with `t` spliced in at index `p`; a Delete with length `n` at
position `p` removes the `n` characters starting at `p`; a FullSync carrying
non-empty content `c` yields exactly `c`; a FullSync carrying empty content
is a no-op and keeps the previous content. -/
theorem C1_applyOperation_amended (content : List Char) (op : TextOperation) :
    (∀ (p : Nat) (t : List Char), op.type = OpType.insert →
        op.position = some (p : Int) → op.text = some t →
        applyOperation content op = spliceAt content p t) ∧
    (∀ (p n : Nat), op.type = OpType.delete →
        op.position = some (p : Int) → op.length = some (n : Int) →
        applyOperation content op = removeAt content p n) ∧
    (∀ c, op.type = OpType.sync → op.content = some c →
        (c ≠ [] → applyOperation content op = c) ∧
        (c = [] → applyOperation content op = content)) := by
  refine ⟨?_, ?_, ?_⟩
  · intro p t hty hpos htext
    by_cases ht : t = []
    · subst ht
      simp [applyOperation, hty, htext, truthyStr, spliceAt, List.take_append_drop]
    · simp [applyOperation, hty, hpos, htext, truthyStr, ht, spliceAt,
        jsTake_natCast, jsDrop_natCast]
  · intro p n hty hpos hlen
    by_cases hn : n = 0
    · subst hn
      simp [applyOperation, hty, hlen, truthyNum, removeAt, List.take_append_drop]
    · have hne2 : ((n : Int)) ≠ 0 := Int.natCast_ne_zero.mpr hn
      have hdrop : jsDrop content ((p : Int) + (n : Int)) = content.drop (p + n) := by
        rw [show ((p : Int) + (n : Int)) = ((p + n : Nat) : Int) by push_cast; ring]
        exact jsDrop_natCast content (p + n)
      simp [applyOperation, hty, hpos, hlen, truthyNum, hne2, removeAt,
        jsTake_natCast, hdrop]
  · intro c hty hc
    constructor
    · intro hne
      simp [applyOperation, hty, hc, truthyStr, hne]
    · intro he
      subst he
      simp [applyOperation, hty, hc, truthyStr]

/-- Claim C1, witness: inserting `"X"` at index 1 of `"hi"` gives `"hXi"`. -/
theorem C1_witness :
    applyOperation ['h', 'i']
      { type := OpType.insert, userId := "u", position := some 1, text := some ['X'] } =
      spliceAt ['h', 'i'] 1 ['X'] ∧
    spliceAt ['h', 'i'] 1 ['X'] = ['h', 'X', 'i'] := by
  constructor
  · exact (C1_applyOperation_amended ['h', 'i'] _).1 1 ['X'] rfl rfl rfl
  · decide

/-- Claim C3, counterexample. Deleting all three characters of `"abc"`
leaves the empty buffer, but a FullSync carrying that empty buffer is a
no-op (truthiness guard), so replaying the sequence and applying the
equivalent FullSync do not agree. -/
theorem C3_counterexample :
    List.foldl applyOperation ['a', 'b', 'c']
      [{ type := OpType.delete, userId := "u", position := some 0, length := some 3 }] = [] ∧
    applyOperation ['a', 'b', 'c']
      { type := OpType.sync, userId := "u",
        content := some (List.foldl applyOperation ['a', 'b', 'c']
          [{ type := OpType.delete, userId := "u", position := some 0, length := some 3 }]) } ≠
      List.foldl applyOperation ['a', 'b', 'c']
        [{ type := OpType.delete, userId := "u", position := some 0, length := some 3 }] := by
  constructor
  · decide
  · decide

/-- Claim C3, amended: for every initial content and every sequence of
Insert/Delete operations of a single user, replaying the sequence equals
applying one FullSync of the resulting buffer, provided the resulting
buffer is non-empty (a FullSync of an empty buffer is a no-op and returns
the initial content instead). -/
theorem C3_replay_fullsync_amended (content : List Char) (u : String)
    (ops : List TextOperation)
    (hops : ∀ op ∈ ops, op.type = OpType.insert ∨ op.type = OpType.delete)
    (huser : ∀ op ∈ ops, op.userId = u)
    (hne : List.foldl applyOperation content ops ≠ []) :
    applyOperation content
      { type := OpType.sync, userId := u,
        content := some (List.foldl applyOperation content ops) } =
      List.foldl applyOperation content ops := by
  simp [applyOperation, truthyStr, hne]

/-- Claim C3, witness: appending `"C"` to `"ab"` and FullSyncing the result
agree on `"abC"`. -/
theorem C3_witness :
    applyOperation ['a', 'b']
      { type := OpType.sync, userId := "u",
        content := some (List.foldl applyOperation ['a', 'b']
          [{ type := OpType.insert, userId := "u", position := some 2, text := some ['C'] }]) } =
      List.foldl applyOperation ['a', 'b']
        [{ type := OpType.insert, userId := "u", position := some 2, text := some ['C'] }] := by
  exact C3_replay_fullsync_amended ['a', 'b'] "u" _
    (by decide) (by decide) (by decide)

/-- Claim C10: a Delete whose `length` is 0 and a sync/FullSync whose
`content` is the empty string fall through the truthiness guards of both
the session-side `applyOperation` and the client-side `sendOperation`
content update, so they leave the content unchanged; in particular an
empty-document FullSync cannot clear a non-empty document. -/
theorem C10_noop_guards (content : List Char) (op : TextOperation) :
    (op.type = OpType.delete → op.length = some 0 →
      applyOperation content op = content) ∧
    (op.type = OpType.sync → op.content = some [] →
      applyOperation content op = content) ∧
    (op.type = OpType.delete → op.length = some 0 →
      sendOperationContent content op = content) ∧
    (op.type = OpType.sync → op.content = some [] →
      sendOperationContent content op = content) ∧
    (content ≠ [] → op.type = OpType.sync → op.content = some [] →
      applyOperation content op ≠ []) := by
  refine ⟨?_, ?_, ?_, ?_, ?_⟩
  · intro hty hlen
    simp [applyOperation, hty, hlen, truthyNum]
  · intro hty hc
    simp [applyOperation, hty, hc, truthyStr]
  · intro hty hlen
    simp [sendOperationContent, hty, hlen, truthyNum]
  · intro hty hc
    simp [sendOperationContent, hty, hc, truthyStr]
  · intro hcne hty hc
    simpa [applyOperation, hty, hc, truthyStr] using hcne

/-- Claim C10, witness: a zero-length Delete and an empty FullSync both
leave `"ab"` unchanged. -/
theorem C10_witness :
    applyOperation ['a', 'b']
      { type := OpType.delete, userId := "u", position := some 1, length := some 0 } =
      ['a', 'b'] ∧
    applyOperation ['a', 'b']
      { type := OpType.sync, userId := "u", content := some [] } = ['a', 'b'] := by
  constructor
  · exact (C10_noop_guards ['a', 'b'] _).1 rfl rfl
  · exact (C10_noop_guards ['a', 'b'] _).2.1 rfl rfl

/-- The loop body of `transformOperation`, on an incoming insert or delete
whose position is defined, realises exactly the spec's shift: `+text.length`
for a prior insert at or before the current position, `-length` for a prior
delete strictly before it, no change otherwise. -/
theorem transformStep_shift (inOp ex : TextOperation) (q : Int)
    (hty : inOp.type = OpType.insert ∨ inOp.type = OpType.delete)
    (hskip : sameFromUser ex inOp = false) :
    transformStep { inOp with position := some q } ex =
      { inOp with position := some (specShift q ex) } := by
  obtain ⟨ty, uid, pos, tx, ln, ct, ts, fu⟩ := inOp
  obtain ⟨ety, euid, epos, etx, eln, ect, ets, efu⟩ := ex
  have hsk2 : sameFromUser ⟨ety, euid, epos, etx, eln, ect, ets, efu⟩
      ⟨ty, uid, some q, tx, ln, ct, ts, fu⟩ = false := hskip
  rcases hty with hty | hty <;> cases hty <;>
    cases ety <;>
      cases epos <;>
        simp only [transformStep, specShift, hsk2, Bool.false_eq_true, if_false,
          posLe, posLt, decide_eq_true_eq] <;>
      first
        | rfl
        | (split_ifs <;> simp)

/-- Folding the transform loop over a history of operations none of which
trips the same-user guard accumulates exactly the spec's shifts. -/
theorem foldl_transformStep (inOp : TextOperation) (ops : List TextOperation)
    (hty : inOp.type = OpType.insert ∨ inOp.type = OpType.delete)
    (husers : ∀ ex ∈ ops, sameFromUser ex inOp = false) :
    ∀ q : Int, ops.foldl transformStep { inOp with position := some q } =
      { inOp with position := some (ops.foldl specShift q) } := by
  induction ops with
  | nil => intro q; rfl
  | cons e l ih =>
      intro q
      rw [List.foldl_cons, transformStep_shift inOp e q hty (husers e (by simp)),
        List.foldl_cons, ih (fun ex hex => husers ex (by simp [hex]))]

/-- Claim C2: on an incoming Insert or Delete with a defined position, and a
timestamp-sorted history of operations from different users, the transform
shifts the incoming position by `+text.length` for each prior insert at or
before the (evolving) position and by `-length` for each prior delete
strictly before it; nothing else about the operation changes. The witness
instantiates the spec's example: insert `"X"` at 5 against a prior insert of
`"AB"` at 2 lands at position 7. -/
theorem C2_transform_shifts (inOp : TextOperation) (ops : List TextOperation)
    (p : Int)
    (hty : inOp.type = OpType.insert ∨ inOp.type = OpType.delete)
    (hpos : inOp.position = some p)
    (husers : ∀ ex ∈ ops, sameFromUser ex inOp = false)
    (hsorted : ops.Sorted (fun a b => tsD a ≤ tsD b)) :
    transformOperation inOp ops =
      { inOp with position := some (ops.foldl specShift p) } := by
  have heta : { inOp with position := some p } = inOp := by rw [← hpos]
  unfold transformOperation
  by_cases h0 : ops = []
  · subst h0
    simpa using heta.symm
  · rw [if_neg h0]
    unfold sortByTs
    rw [List.Sorted.insertionSort_eq hsorted, ← heta,
      foldl_transformStep inOp ops hty husers p]

/-- Claim C2, witness: `transform(insert@5 "X", [prior insert@2 "AB"])`
yields position 7 (the spec's worked example), via the general theorem. -/
theorem C2_witness :
    transformOperation
      { type := OpType.insert, userId := "alice", position := some 5,
        text := some ['X'], fromUserId := some "alice" }
      [{ type := OpType.insert, userId := "bob", position := some 2,
         text := some ['A', 'B'], timestamp := some 1, fromUserId := some "bob" }] =
      { type := OpType.insert, userId := "alice", position := some 7,
        text := some ['X'], fromUserId := some "alice" } := by
  have h := C2_transform_shifts
    { type := OpType.insert, userId := "alice", position := some 5,
      text := some ['X'], fromUserId := some "alice" }
    [{ type := OpType.insert, userId := "bob", position := some 2,
       text := some ['A', 'B'], timestamp := some 1, fromUserId := some "bob" }]
    5 (Or.inl rfl) rfl (by decide) (by simp)
  exact h.trans (by decide)

/-- Claim C8, counterexample. Both operations below originate from the same
user (`userId = "u"`), yet since neither carries a `fromUserId`, the
same-user guard of `transformOperation` (which consults only the optional
`fromUserId`) does not fire, and the incoming insert at 5 is shifted to 7 by
the prior same-user insert. -/
theorem C8_counterexample :
    (transformOperation
      { type := OpType.insert, userId := "u", position := some 5, text := some ['X'] }
      [{ type := OpType.insert, userId := "u", position := some 2,
         text := some ['A', 'B'], timestamp := some 1 }]).position = some 7 ∧
    ({ type := OpType.insert, userId := "u", position := some 5,
       text := some ['X'] } : TextOperation).userId =
      ({ type := OpType.insert, userId := "u", position := some 2,
         text := some ['A', 'B'], timestamp := some 1 } : TextOperation).userId := by
  constructor
  · decide
  · rfl

/-- Claim C8, amended: the transform never adjusts the incoming operation
against a recent operation whose `fromUserId` is present, non-empty and
equal to the incoming operation's own present, non-empty `fromUserId`; when
every recent operation is identified as same-user this way, the incoming
operation is returned entirely unchanged. (Operations lacking a truthy
`fromUserId` are transformed even when their required `userId` fields
coincide.) -/
theorem C8_same_user_skip_amended (inOp : TextOperation)
    (ops : List TextOperation)
    (h : ∀ ex ∈ ops, sameFromUser ex inOp = true) :
    transformOperation inOp ops = inOp := by
  unfold transformOperation
  by_cases h0 : ops = []
  · simp [h0]
  · rw [if_neg h0]
    have hmem : ∀ ex ∈ sortByTs ops, sameFromUser ex inOp = true := by
      intro ex hex
      exact h ex ((List.perm_insertionSort _ ops).mem_iff.mp hex)
    revert hmem
    generalize sortByTs ops = l
    intro hmem
    induction l with
    | nil => rfl
    | cons e t ih =>
        rw [List.foldl_cons]
        have hstep : transformStep inOp e = inOp := by
          simp [transformStep, hmem e (by simp)]
        rw [hstep]
        exact ih (fun ex hex => hmem ex (by simp [hex]))

/-- Claim C8, witness: an incoming insert is returned unchanged when the
only recent operation carries the same non-empty `fromUserId`. -/
theorem C8_witness :
    transformOperation
      { type := OpType.insert, userId := "u", position := some 5,
        text := some ['X'], fromUserId := some "u" }
      [{ type := OpType.insert, userId := "u", position := some 2,
         text := some ['A', 'B'], timestamp := some 1, fromUserId := some "u" }] =
      { type := OpType.insert, userId := "u", position := some 5,
        text := some ['X'], fromUserId := some "u" } := by
  exact C8_same_user_skip_amended _ _ (by decide)

/-- Claim C9, counterexample. Both operations below carry the same required
`userId` — they are the same user's operations — yet because neither has a
truthy `fromUserId`, the validator's same-user filter does not exclude the
existing one, and the incoming operation is flagged invalid although no
operation of a *different* user lies within the 1-second window. -/
theorem C9_counterexample :
    (validateOperation
      { type := OpType.insert, userId := "u", position := some 1,
        text := some ['X'], timestamp := some 100 }
      [{ type := OpType.insert, userId := "u", position := some 3,
         text := some ['Y'], timestamp := some 200 }]).isValid = false ∧
    ({ type := OpType.insert, userId := "u", position := some 1,
       text := some ['X'], timestamp := some 100 } : TextOperation).userId =
      ({ type := OpType.insert, userId := "u", position := some 3,
         text := some ['Y'], timestamp := some 200 } : TextOperation).userId := by
  constructor
  · decide
  · rfl

/-- Claim C9, amended: `validate` returns `valid = false` exactly when the
existing list is non-empty and either the incoming operation's timestamp is
absent or zero, or some existing operation — excluding only those sharing
the incoming operation's truthy `fromUserId` — has a defaulted timestamp
(missing timestamps count as 0) strictly within 1000 ms of the incoming
one's; and the result is advisory only: `executeOperation` applies the
operation to the session content regardless of an invalid verdict. -/
theorem C9_validate_amended (inc : TextOperation) (ops : List TextOperation) :
    ((validateOperation inc ops).isValid = false ↔
      ops ≠ [] ∧ (truthyNum inc.timestamp = false ∨
        ∃ ex ∈ ops, sameFromUser ex inc = false ∧ (tsD ex - tsD inc).natAbs < 1000)) ∧
    (∀ (sess : CollabSession) (now : Int),
      (validateOperation inc ops).isValid = false →
      (executeOperation sess inc now).2.content =
        applyOperation sess.content { inc with timestamp := some now }) := by
  have hconf : ∀ ex, conflictsWith inc ex = true ↔
      (sameFromUser ex inc = false ∧ (tsD ex - tsD inc).natAbs < 1000) := by
    intro ex
    unfold conflictsWith
    by_cases hs : sameFromUser ex inc
    · simp [hs]
    · simp [hs]
  have hfilter : (0 < (ops.filter (conflictsWith inc)).length) ↔
      ∃ ex ∈ ops, conflictsWith inc ex = true := by
    rw [List.length_pos]
    constructor
    · intro hne2
      obtain ⟨x, hx⟩ := List.exists_mem_of_ne_nil _ hne2
      exact ⟨x, (List.mem_filter.mp hx).1, (List.mem_filter.mp hx).2⟩
    · rintro ⟨x, hx, hpx⟩ hnil
      exact (List.filter_eq_nil_iff.mp hnil x hx) hpx
  constructor
  · unfold validateOperation
    by_cases h0 : ops = []
    · simp [h0]
    · rw [if_neg h0]
      by_cases hts : truthyNum inc.timestamp = true
      · rw [if_neg (by simp [hts])]
        by_cases hc : 0 < (ops.filter (conflictsWith inc)).length
        · rw [if_pos hc]
          refine iff_of_true rfl ⟨h0, Or.inr ?_⟩
          obtain ⟨x, hx, hpx⟩ := hfilter.mp hc
          exact ⟨x, hx, (hconf x).mp hpx⟩
        · rw [if_neg hc]
          refine iff_of_false (by simp) ?_
          rintro ⟨-, h | ⟨x, hx, hpx⟩⟩
          · exact absurd h (by simp [hts])
          · exact hc (hfilter.mpr ⟨x, hx, (hconf x).mpr hpx⟩)
      · have hts2 : truthyNum inc.timestamp = false := by
          simpa using hts
        rw [if_pos (by simp [hts2])]
        exact iff_of_true rfl ⟨h0, Or.inl hts2⟩
  · intro sess now _
    rfl

/-- Claim C9, witness: an incoming operation 100 ms after a different
user's existing operation is flagged invalid, and `executeOperation` still
applies it to the content. -/
theorem C9_witness :
    (validateOperation
      { type := OpType.insert, userId := "a", position := some 0,
        text := some ['Z'], timestamp := some 600, fromUserId := some "a" }
      [{ type := OpType.insert, userId := "b", position := some 0,
         text := some ['W'], timestamp := some 500, fromUserId := some "b" }]).isValid = false ∧
    (executeOperation { content := ['m'], operations := [] }
      { type := OpType.insert, userId := "a", position := some 0,
        text := some ['Z'], timestamp := some 600, fromUserId := some "a" } 600).2.content =
      ['Z', 'm'] := by
  have h := C9_validate_amended
    { type := OpType.insert, userId := "a", position := some 0,
      text := some ['Z'], timestamp := some 600, fromUserId := some "a" }
    [{ type := OpType.insert, userId := "b", position := some 0,
       text := some ['W'], timestamp := some 500, fromUserId := some "b" }]
  have hinv := h.1.mpr (by decide)
  refine ⟨hinv, ?_⟩
  rw [h.2 { content := ['m'], operations := [] } 600 hinv]
  decide

/-- One join or leave event never pushes a session that respects the
capacity bound above it: rejected joins and replacements keep the list,
an accepted fresh join appends below capacity, a leave only removes. -/
theorem stepSession_card (s : Session) (e : SessionEvent)
    (h : s.users.length ≤ 8) : (stepSession s e).users.length ≤ 8 := by
  cases e with
  | leave uid =>
      simp only [stepSession, handleLeave]
      exact le_trans (List.Sublist.length_le (List.eraseP_sublist _)) h
  | join uid name color now =>
      simp only [stepSession]
      unfold handleJoin
      split
      · exact h
      · split
        · exact h
        · rename_i hfull hname
          split
          · simpa [List.length_set] using h
          · simp only [List.length_append, List.length_cons, List.length_nil]
            simp only [MAX_USERS_PER_SESSION, not_le] at hfull
            omega

/-- Claim C4: starting from any session within the 8-participant capacity,
any sequence of join and leave events keeps the participant list at 8 or
fewer; and a join attempted when the session already holds exactly 8
participants is rejected with `SessionFull`, leaving the session
unchanged. -/
theorem C4_capacity (s : Session) (evs : List SessionEvent)
    (h : s.users.length ≤ 8) :
    (evs.foldl stepSession s).users.length ≤ 8 ∧
    (∀ uid name color now, s.users.length = 8 →
      handleJoin s uid name color now = (JoinResult.sessionFull, s)) := by
  constructor
  · induction evs generalizing s with
    | nil => exact h
    | cons e t ih => exact ih _ (stepSession_card s e h)
  · intro uid name color now h8
    unfold handleJoin
    rw [if_pos (by simp [MAX_USERS_PER_SESSION, h8])]

/-- Claim C4, witness: the empty session stays within capacity across a
join, and the ninth join attempt against a full session is rejected with
`SessionFull`. -/
theorem C4_witness :
    (List.foldl stepSession fullSession
      [SessionEvent.join "u9" "n9" "#009688" 1]).users.length ≤ 8 ∧
    handleJoin fullSession "u9" "n9" "#009688" 1 =
      (JoinResult.sessionFull, fullSession) := by
  have h := C4_capacity fullSession [SessionEvent.join "u9" "n9" "#009688" 1]
    (by decide)
  exact ⟨h.1, h.2 "u9" "n9" "#009688" 1 (by decide)⟩

/-- Claim C5, counterexample. `u1` is already a participant of
`fullSession` (with its own name `n1`), yet its rejoin attempt is rejected
with `SessionFull`, because the capacity check precedes the existing-id
lookup; the claim says a join with an id already present in the session
succeeds and replaces the prior entry. -/
theorem C5_counterexample :
    (handleJoin fullSession "u1" "n1" "#4CAF50" 9).1 = JoinResult.sessionFull ∧
    fullSession.users.any (fun u => u.id == "u1") = true := by
  constructor
  · rfl
  · rfl

/-- Claim C5, amended: provided the session is strictly below the
8-participant capacity, a join is rejected with `NameTaken` exactly when
the requested name is already used, case-insensitively, by a participant
with a different id; and a join using the id of a participant already
present (with no such name clash) succeeds and replaces that participant's
prior entry in place, leaving the participant count unchanged. (At
capacity, every join — a rejoin of a present id included — is rejected with
`SessionFull` instead.) -/
theorem C5_names_amended (s : Session) (uid name color : String) (now : Int)
    (hcap : s.users.length < 8) :
    ((handleJoin s uid name color now).1 = JoinResult.nameTaken ↔
      ∃ u ∈ s.users, lowerEqNames u.name name = true ∧ u.id ≠ uid) ∧
    (∀ i, s.users.findIdx? (fun u => u.id == uid) = some i →
      (¬ ∃ u ∈ s.users, lowerEqNames u.name name = true ∧ u.id ≠ uid) →
      (handleJoin s uid name color now).1 = JoinResult.success ∧
      (handleJoin s uid name color now).2.users =
        s.users.set i { id := uid, name := name, color := color,
                        status := "active", lastActive := now } ∧
      (handleJoin s uid name color now).2.users.length = s.users.length) := by
  have hnotfull : ¬ MAX_USERS_PER_SESSION ≤ s.users.length := by
    simp only [MAX_USERS_PER_SESSION, not_le]
    exact hcap
  constructor
  · unfold handleJoin
    rw [if_neg hnotfull]
    by_cases hname : s.users.any (fun u => lowerEqNames u.name name && u.id != uid) = true
    · rw [if_pos hname]
      simp only [List.any_eq_true, Bool.and_eq_true, bne_iff_ne] at hname
      exact iff_of_true rfl hname
    · rw [if_neg hname]
      simp only [List.any_eq_true, Bool.and_eq_true, bne_iff_ne] at hname
      push_neg at hname
      constructor
      · intro hres
        exfalso
        revert hres
        cases s.users.findIdx? (fun u => u.id == uid) <;> simp
      · rintro ⟨u, hu, hlow, hne⟩
        exact absurd (hname u hu hlow) hne
  · intro i hi hnot
    have hname : ¬ s.users.any (fun u => lowerEqNames u.name name && u.id != uid) = true := by
      intro hany
      simp only [List.any_eq_true, Bool.and_eq_true, bne_iff_ne] at hany
      exact hnot hany
    unfold handleJoin
    rw [if_neg hnotfull, if_neg hname, hi]
    exact ⟨rfl, rfl, by simp [List.length_set]⟩

/-- Claim C5, witness: below capacity, `u1` rejoins `demoSession` under a
fresh name and replaces its own entry without being rejected and without
growing the list. -/
theorem C5_witness :
    (handleJoin demoSession "u1" "Bob" "#2196F3" 5).1 = JoinResult.success ∧
    (handleJoin demoSession "u1" "Bob" "#2196F3" 5).2.users =
      [{ id := "u1", name := "Bob", color := "#2196F3",
         status := "active", lastActive := 5 }] := by
  have h := (C5_names_amended demoSession "u1" "Bob" "#2196F3" 5 (by decide)).2
    0 (by rfl) (by decide)
  exact ⟨h.1, by rw [h.2.1]; rfl⟩

/-- Claim C6, counterexample. An `away` participant last refreshed at time 1
is removed by `cleanupOfflineUsers` at time 120002 — only 2 minutes after
its last refresh — although `OFFLINE_TIMEOUT` (5 minutes) has not elapsed
since the refresh, let alone an *additional* `OFFLINE_TIMEOUT` beyond the
Away transition as the claim requires. (This cleanup path, moreover,
broadcasts only a user-list `sync`, not a `leave`.) -/
theorem C6_counterexample :
    cleanupOfflineUsers
      [{ id := "u1", name := "N", status := UserStatus.away,
         lastActive := some 1 }] 120002 = [] ∧
    (120002 : Int) - 1 < OFFLINE_TIMEOUT ∧
    (120002 : Int) - 1 < AWAY_TIMEOUT + OFFLINE_TIMEOUT := by
  refine ⟨?_, ?_, ?_⟩ <;> decide

/-- Claim C6, amended: an `online` participant whose non-zero `lastActive`
lies strictly more than `AWAY_TIMEOUT` (30 s) in the past becomes `away` at
the next activity check, and no user is touched by that check within
`AWAY_TIMEOUT`; removal is measured from `lastActive`, not from the Away
transition: the heartbeat sweep removes (and broadcasts a `leave` for) any
other participant whose `lastActive` is falsy or more than
`OFFLINE_TIMEOUT` (5 min) old, while the periodic cleanup additionally
removes an `away` participant whose `lastActive` is already more than two
minutes old, keeping everyone not meeting these bounds. -/
theorem C6_presence_amended :
    (∀ (now : Int) (u : CUser) (la : Int), u.status = UserStatus.online →
      u.lastActive = some la → la ≠ 0 → AWAY_TIMEOUT < now - la →
      (activityCheckUser now u).status = UserStatus.away) ∧
    (∀ (now : Int) (u : CUser) (la : Int), u.lastActive = some la →
      now - la ≤ AWAY_TIMEOUT → activityCheckUser now u = u) ∧
    (∀ (now : Int) (u : CUser) (la : Int), u.lastActive = some la → la ≠ 0 →
      OFFLINE_TIMEOUT < now - la → cleanupKeep now u = false) ∧
    (∀ (now : Int) (u : CUser) (la : Int), u.status = UserStatus.away →
      u.lastActive = some la → la ≠ 0 → awayRemoveLimit < now - la →
      cleanupKeep now u = false) ∧
    (∀ (now : Int) (u : CUser) (la : Int), u.lastActive = some la → la ≠ 0 →
      now - la ≤ OFFLINE_TIMEOUT →
      (u.status = UserStatus.away → now - la ≤ awayRemoveLimit) →
      cleanupKeep now u = true) ∧
    (∀ (users : List CUser) (uid : String) (now : Int) (u : CUser) (la : Int),
      u ∈ users → u.id ≠ uid → u.lastActive = some la → la ≠ 0 →
      OFFLINE_TIMEOUT < now - la →
      u.id ∈ (sendHeartbeatUsers users uid now).2) := by
  refine ⟨?_, ?_, ?_, ?_, ?_, ?_⟩
  · intro now u la hst hla hne hlt
    simp [activityCheckUser, hst, hla, truthyNum, hne, hlt]
  · intro now u la hla hle
    simp [activityCheckUser, hla, truthyNum, not_lt.mpr hle]
  · intro now u la hla hne hlt
    simp [cleanupKeep, hla, truthyNum, hne, hlt]
  · intro now u la hst hla hne hlt
    by_cases hoff : OFFLINE_TIMEOUT < now - la
    · simp [cleanupKeep, hla, truthyNum, hne, hoff]
    · simp [cleanupKeep, hla, truthyNum, hne, hoff, hst, hlt]
  · intro now u la hla hne hoffle hcond
    by_cases haway : u.status = UserStatus.away
    · simp [cleanupKeep, hla, truthyNum, hne, not_lt.mpr hoffle, haway,
        not_lt.mpr (hcond haway)]
    · simp [cleanupKeep, hla, truthyNum, hne, not_lt.mpr hoffle, haway]
  · intro users uid now u la hmem hid hla hne hlt
    have hupd : heartbeatTouch uid now u = u := by
      simp [heartbeatTouch, hid]
    have hmem2 : u ∈ users.map (heartbeatTouch uid now) := by
      rw [← hupd]
      exact List.mem_map_of_mem _ hmem
    have hkeep : heartbeatKeep now u = false := by
      simp [heartbeatKeep, hla, truthyNum, hne, not_le.mpr hlt]
    simp only [sendHeartbeatUsers]
    exact List.mem_map_of_mem _ (List.mem_filter.mpr ⟨hmem2, by simp [hkeep]⟩)

/-- Claim C6, witness: an online user last active at time 1 is switched to
`away` by the activity check at time 30002. -/
theorem C6_witness :
    (activityCheckUser 30002
      { id := "u", name := "N", status := UserStatus.online,
        lastActive := some 1 }).status = UserStatus.away :=
  C6_presence_amended.1 30002
    { id := "u", name := "N", status := UserStatus.online, lastActive := some 1 }
    1 rfl rfl (by decide) (by decide)

/-- Claim C7, counterexample. A `connection_ack` failure carrying
`SessionFull` is fed to `handleConnectionFailure` like every other failure:
alone it consumes one 1-second retry delay before ever resolving (not an
immediate terminal surface), and followed by a successful ack the overall
connect resolves `true` — the rejected ack was retried. -/
theorem C7_counterexample :
    connectRun [AttemptOutcome.ackFailure "SessionFull"] = (false, 1000) ∧
    connectRun [AttemptOutcome.ackFailure "SessionFull",
      AttemptOutcome.ackSuccess] = (true, 1000) := by
  constructor
  · rfl
  · rfl

/-- The retry loop with `r` retries left succeeds exactly when one of the
next `r + 1` scripted attempts acks success, and spends one fixed delay per
failed attempt it retries. -/
theorem connectWithRetry_spec (os : List AttemptOutcome) :
    ∀ r : Nat,
      ((connectWithRetry r os).1 = true ↔
        AttemptOutcome.ackSuccess ∈ os.take (r + 1)) ∧
      (connectWithRetry r os).2 =
        retryDelayMs * min (os.takeWhile isFailure).length r := by
  induction os with
  | nil =>
      intro r
      constructor
      · simp [connectWithRetry]
      · simp [connectWithRetry]
  | cons o rest ih =>
      intro r
      cases o with
      | ackSuccess =>
          constructor
          · simp [connectWithRetry, List.take_succ_cons]
          · simp [connectWithRetry, List.takeWhile_cons, isFailure]
      | ackFailure e =>
          by_cases hr : 0 < r
          · obtain ⟨r2, rfl⟩ : ∃ r2, r = r2 + 1 := ⟨r - 1, by omega⟩
            have h := ih r2
            constructor
            · simp [connectWithRetry, h.1, List.take_succ_cons]
            · simp only [connectWithRetry, Nat.succ_sub_one, hr, if_true,
                List.takeWhile_cons, isFailure, List.length_cons, h.2]
              rw [Nat.succ_min_succ, Nat.mul_succ]
              omega
          · obtain rfl : r = 0 := by omega
            constructor
            · simp [connectWithRetry, List.take_succ_cons]
            · simp [connectWithRetry]
      | transportError =>
          by_cases hr : 0 < r
          · obtain ⟨r2, rfl⟩ : ∃ r2, r = r2 + 1 := ⟨r - 1, by omega⟩
            have h := ih r2
            constructor
            · simp [connectWithRetry, h.1, List.take_succ_cons]
            · simp only [connectWithRetry, Nat.succ_sub_one, hr, if_true,
                List.takeWhile_cons, isFailure, List.length_cons, h.2]
              rw [Nat.succ_min_succ, Nat.mul_succ]
              omega
          · obtain rfl : r = 0 := by omega
            constructor
            · simp [connectWithRetry, List.take_succ_cons]
            · simp [connectWithRetry]
      | connectTimeout =>
          by_cases hr : 0 < r
          · obtain ⟨r2, rfl⟩ : ∃ r2, r = r2 + 1 := ⟨r - 1, by omega⟩
            have h := ih r2
            constructor
            · simp [connectWithRetry, h.1, List.take_succ_cons]
            · simp only [connectWithRetry, Nat.succ_sub_one, hr, if_true,
                List.takeWhile_cons, isFailure, List.length_cons, h.2]
              rw [Nat.succ_min_succ, Nat.mul_succ]
              omega
          · obtain rfl : r = 0 := by omega
            constructor
            · simp [connectWithRetry, List.take_succ_cons]
            · simp [connectWithRetry]

/-- Claim C7, amended: `connect` treats every connection failure alike —
timeouts, transport errors, and `connection_ack` rejections (SessionFull /
NameTaken included) all go through the same retry path. The connect
resolves `true` exactly when one of the first `maxRetries + 1 = 4`
attempts (the initial one plus up to 3 retries) acks success, and it waits
one fixed 1-second delay before each retry; after 4 failed attempts it
resolves with a terminal `false`. -/
theorem C7_retry_amended (os : List AttemptOutcome) :
    ((connectRun os).1 = true ↔
      AttemptOutcome.ackSuccess ∈ os.take (maxRetries + 1)) ∧
    (connectRun os).2 =
      retryDelayMs * min (os.takeWhile isFailure).length maxRetries :=
  connectWithRetry_spec os maxRetries
